import Mathlib

/-!
Verification development for the `watchdrain` repository (Go).

The repository watches a directory until it is empty of (non-directory)
files.  Its core, `watchdrain.go`, runs three producer goroutines — the
drain tracker (`drainer`), the deadline timer (`timer`) and the churn
monitor (`threshold`) — which race to deliver a single `result` value to an
unbuffered channel `resultCh`; the arbiter (`watchDrain`) consumes the
first delivery, cancels a shared `context`, closes `resultCh` and closes
the fsnotify watcher.

This file contains two shallow embeddings, both translated from
`src/watchdrain.go`:

* a *sequential* model of the per-task loops (`drainerRun`, `thresholdRun`)
  treating the task in isolation, with its channel inputs as a script and
  its channel outputs recorded in the result structure; and
* a *concurrent* small-step model (`Step`, `Reach`) of the whole
  `watchDrain` invocation, one transition per Go statement (channel
  rendezvous is a joint step of sender and receiver; a goroutine's purely
  local actions between two channel interactions are coalesced into the
  adjacent transition, which is sound because they are invisible to the
  other tasks).

Machine integers: the file counter is a Go `*uint32`, modelled as `Nat`
with arithmetic modulo `2^32` (`inc32`/`dec32`).  The churn threshold is a
Go `uint` compared through the conversion `int(opt.threshold)`; both are
64-bit on the platforms the repository targets, and the conversion is
modelled exactly by `intOfUint` (values `≥ 2^63` wrap to negative).
-/

/-- Errors visible to the watch engine: the two package-level sentinels of
`watchdrain.go` (`ErrTimerEnded`, `ErrThresholdExceeded`) plus an opaque
family standing for the errors delivered by `watcher.Errors`. -/
inductive WErr
  | errTimerEnded
  | errThresholdExceeded
  | watcherErr (code : Nat)
deriving DecidableEq

/-- `result` from `watchdrain.go`: the value sent on `resultCh`.
Go zero values make `drained = false` and `err = nil` the defaults; the
producers build either `result{drained: true}` or `result{err: e}`. -/
structure result where
  drained : Bool
  err : Option WErr
deriving DecidableEq

/-- `event` from `watchdrain.go` (`type event uint8`; `Create`, `Remove`):
the tags forwarded from the drain tracker to the churn monitor. -/
inductive event
  | Create
  | Remove
deriving DecidableEq

/-- Bit masks of the fsnotify operations (`fsnotify.Op`): `Create = 1 << 0`,
`Write = 1 << 1`, `Remove = 1 << 2`, `Rename = 1 << 3`, `Chmod = 1 << 4`. -/
def createMask : Nat := 1

def writeMask : Nat := 2

def removeMask : Nat := 4

def renameMask : Nat := 8

def chmodMask : Nat := 16

/-- `op &&& mask == mask` mirrors the Go test
`event.Op&fsnotify.Remove == fsnotify.Remove`. -/
def hasOp (op mask : Nat) : Bool := op &&& mask == mask

/-- An fsnotify notification event.  The Go `fsnotify.Event` carries `Op`
and `Name`; `subjectIsDir` is a ghost field recording whether the
filesystem object the notification concerns is a directory (a fact of the
environment that the event itself does not expose and the code never
inspects). -/
structure FsEvent where
  op : Nat
  name : String
  subjectIsDir : Bool
deriving DecidableEq

def u32 : Nat := 4294967296

/-- `*d.files++` on the `uint32` counter. -/
def inc32 (n : Nat) : Nat := (n + 1) % u32

/-- `*d.files--` on the `uint32` counter (wraps at zero). -/
def dec32 (n : Nat) : Nat := (n + u32 - 1) % u32

/-- `options` from `watchdrain.go`.  `hasEventCh` records whether
`newOptions` allocated the `eventCh` channel; `timer` is the deadline
duration in nanoseconds; `threshold` is the Go `uint` churn threshold. -/
structure options where
  hasEventCh : Bool
  timer : Nat
  threshold : Nat
  verbose : Bool
deriving DecidableEq

/-- `newOptions`: the event channel exists exactly when `threshold > 0`. -/
def newOptions (timer threshold : Nat) (verbose : Bool) : options :=
  { hasEventCh := decide (0 < threshold), timer := timer,
    threshold := threshold, verbose := verbose }

/-- The Go conversion `int(t)` applied to a `uint` value `t < 2^64`
(64-bit platform): values at or above `2^63` wrap to negative. -/
def intOfUint (t : Nat) : Int :=
  if t < 2 ^ 63 then (t : Int) else (t : Int) - 2 ^ 64

/-- Two's-complement wrap-around of Go `int` (64-bit) arithmetic: maps
every integer into `[-2^63, 2^63)`.  Go signed arithmetic overflows by
wrapping, so each `++` and each subtraction of the churn counters goes
through this normalization. -/
def wrap64 (n : Int) : Int := (n + 2 ^ 63) % 2 ^ 64 - 2 ^ 63

/-- One item observed by the drain tracker's `select` over
`watcher.Events` / `watcher.Errors`: an event delivery, the events channel
reporting closure (`ok == false`), an error delivery, or the errors
channel reporting closure. -/
inductive Item
  | ev (e : FsEvent)
  | evClosed
  | errItem (er : WErr)
  | errClosed
deriving DecidableEq

/-- Observable behaviour of one sequential run of `drainer`:
the final counter value, the tags forwarded to `eventCh` (in order), the
`result` values the tracker attempts to send on `resultCh` (in order), the
notification events it consumed, whether the function returned (as opposed
to still blocking for input), and whether its deferred
`close(opt.eventCh)` ran. -/
structure DrainerOut where
  files : Nat
  fwd : List event
  pubs : List result
  consumed : List FsEvent
  exited : Bool
  eventChClosed : Bool
deriving DecidableEq

/-- The body of one iteration of `drainer`'s event case: test the Remove
bit (decrement, forward `Remove` when churn monitoring is on), then the
Create bit (increment, forward `Create`).  Returns the new counter and the
forwarded tags in order. -/
def applyFsEvent (opt : options) (files : Nat) (e : FsEvent) : Nat × List event :=
  let step1 :=
    if hasOp e.op removeMask then
      (dec32 files, if 0 < opt.threshold then [event.Remove] else [])
    else (files, ([] : List event))
  let step2 :=
    if hasOp e.op createMask then
      (inc32 step1.1, if 0 < opt.threshold then [event.Create] else [])
    else (step1.1, ([] : List event))
  (step2.1, step1.2 ++ step2.2)

/-- Sequential model of `drainer` (`watchdrain.go`), driven by a script
linearizing its `select` choices.  While the counter is nonzero it
consumes items; on an event it runs `applyFsEvent`; on a closed events
channel it returns; on an error it sends `result{err: err}` and then, the
cancellation it blocks on having fired (the arbiter always cancels after
consuming a result), the `for` loop continues — the Go error case does not
return.  When the counter reaches zero it sends `result{drained: true}`,
blocks until cancellation, and returns.  Every return path runs the
deferred `close(opt.eventCh)` (when `opt.threshold > 0`). -/
def drainerRun (opt : options) (files : Nat) (script : List Item) : DrainerOut :=
  if files = 0 then
    { files := files, fwd := [], pubs := [⟨true, none⟩], consumed := [],
      exited := true, eventChClosed := decide (0 < opt.threshold) }
  else
    match script with
    | [] =>
        { files := files, fwd := [], pubs := [], consumed := [],
          exited := false, eventChClosed := false }
    | Item.ev e :: rest =>
        let p := applyFsEvent opt files e
        let o := drainerRun opt p.1 rest
        { o with fwd := p.2 ++ o.fwd, consumed := e :: o.consumed }
    | Item.evClosed :: _ =>
        { files := files, fwd := [], pubs := [], consumed := [],
          exited := true, eventChClosed := decide (0 < opt.threshold) }
    | Item.errItem er :: rest =>
        let o := drainerRun opt files rest
        { o with pubs := ⟨false, some er⟩ :: o.pubs }
    | Item.errClosed :: rest => drainerRun opt files rest

/-- The `result` value the churn monitor publishes. -/
def thrRes : result := ⟨false, some WErr.errThresholdExceeded⟩

/-- Sequential model of `threshold` (`watchdrain.go`): local `int`
counters `creates`/`removes` (Go `int` is 64-bit and wraps, so the `++`
increments and the subtraction are taken through `wrap64`); each consumed
tag bumps its counter (the Go `switch`), after which the monitor publishes
`ErrThresholdExceeded` as soon as `creates - removes > int(opt.threshold)`;
if the forwarded stream closes first (`ok == false`) it returns `none`
(silent exit, no publication). -/
def thresholdRun (t : Nat) (creates removes : Int) : List event → Option result
  | [] => none
  | event.Remove :: rest =>
      if wrap64 (creates - wrap64 (removes + 1)) > intOfUint t then some thrRes
      else thresholdRun t creates (wrap64 (removes + 1)) rest
  | event.Create :: rest =>
      if wrap64 (wrap64 (creates + 1) - removes) > intOfUint t then some thrRes
      else thresholdRun t (wrap64 (creates + 1)) removes rest

/-- `watchDrain`'s translation of the received `result` into its return
pair: `if res.err != nil { return false, res.err }; return res.drained, nil`. -/
def watchDrainReturn (res : result) : Bool × Option WErr :=
  match res.err with
  | some e => (false, some e)
  | none => (res.drained, none)

/-- The four terminal outcome kinds of the spec. -/
inductive Outcome
  | Drained
  | DeadlineExceeded
  | ThresholdExceeded
  | WatchFailure (e : WErr)
deriving DecidableEq

/-- The `result` value each outcome's producer sends on `resultCh`:
`drainer` sends `result{drained: true}` for a drain and `result{err: err}`
for a watch failure; `timer` sends `result{err: ErrTimerEnded}`;
`threshold` sends `result{err: ErrThresholdExceeded}`. -/
def resultOf : Outcome → result
  | Outcome.Drained => ⟨true, none⟩
  | Outcome.DeadlineExceeded => ⟨false, some WErr.errTimerEnded⟩
  | Outcome.ThresholdExceeded => ⟨false, some WErr.errThresholdExceeded⟩
  | Outcome.WatchFailure e => ⟨false, some e⟩

/-- Events of a script (the payloads of its `Item.ev` entries). -/
def scriptEvents : List Item → List FsEvent
  | [] => []
  | Item.ev e :: rest => e :: scriptEvents rest
  | _ :: rest => scriptEvents rest

/-- Relabelling of a script item that preserves the operation mask but
rewrites the name and the (ghost) directory flag of every notification:
used to state that the drain tracker's behaviour depends on nothing
else. -/
def relabelItem (f : FsEvent → String) (g : FsEvent → Bool) : Item → Item
  | Item.ev e => Item.ev ⟨e.op, f e, g e⟩
  | i => i

/-- Number of events whose operation mask contains `Create`. -/
def evCreates (l : List FsEvent) : Nat :=
  l.countP (fun e => hasOp e.op createMask)

/-- Number of events whose operation mask contains `Remove`. -/
def evRemoves (l : List FsEvent) : Nat :=
  l.countP (fun e => hasOp e.op removeMask)

/-- Net excess of `Create` tags over `Remove` tags in a forwarded list. -/
def excessL (l : List event) : Int :=
  (l.countP (fun e => decide (e = event.Create)) : Int)
    - (l.countP (fun e => decide (e = event.Remove)) : Int)

/-- Program counter of the `drainer` goroutine in the concurrent model.
`loop` is the `for !d.isEmpty()` guard; `select` is the wait on
`watcher.Events`/`watcher.Errors`; `remCheck`/`creCheck` are the two `if`
tests of a consumed event; `fwdRem`/`fwdCre` are the blocking sends
`opt.eventCh <- Remove` / `opt.eventCh <- Create`; `pubDrained`/`pubErr`
are the sends on `resultCh`; `drainedWait`/`errWait` are the
`<-draining.Done()` waits after those sends; `done` is after the function
returned (deferred `close(opt.eventCh)` included); `panicked` is a send on
the closed `resultCh`. -/
inductive DrainPC
  | loop
  | select
  | remCheck (e : FsEvent)
  | fwdRem (e : FsEvent)
  | creCheck (e : FsEvent)
  | fwdCre
  | pubDrained
  | drainedWait
  | pubErr (er : WErr)
  | errWait
  | done
  | panicked
deriving DecidableEq

/-- Program counter of the `timer` goroutine: `off` when no deadline is
configured, `select` is the countdown-or-cancel race, `pub` the committed
send of `ErrTimerEnded` on `resultCh`, `wait` the `<-draining.Done()`
after it. -/
inductive TimPC
  | off
  | select
  | pub
  | wait
  | done
  | panicked
deriving DecidableEq

/-- Program counter of the `threshold` goroutine: `recv c r` is the wait
on `<-opt.eventCh` carrying the local counters, `pub` the committed send
of `ErrThresholdExceeded`, `wait` the `<-draining.Done()` after it. -/
inductive ThrPC
  | off
  | recv (creates removes : Int)
  | pub
  | wait
  | done
  | panicked
deriving DecidableEq

/-- Program counter of the arbiter (`watchDrain` itself): `wait` is the
blocking receive `res := <-resultCh`; the deferred teardown then runs
`cancel()`, `close(resultCh)`, `watcher.Close()` in that order; `ret r`
is `watchDrain` having returned with the received `result` `r`. -/
inductive ArbPC
  | wait
  | cancelStep (r : result)
  | closeRes (r : result)
  | closeWatcher (r : result)
  | ret (r : result)
deriving DecidableEq

/-- Global state of one `watchDrain` invocation: the shared counter, the
pending environment scripts for `watcher.Events` and `watcher.Errors`,
the channel/context flags, and the four program counters.  `delivered`
counts completed sends on `resultCh` (a send completes exactly when the
arbiter's receive consumes it). -/
structure Sys where
  files : Nat
  evs : List FsEvent
  errs : List WErr
  watcherClosed : Bool
  cancelled : Bool
  resultChClosed : Bool
  eventChClosed : Bool
  timerFired : Bool
  dpc : DrainPC
  tpc : TimPC
  hpc : ThrPC
  apc : ArbPC
  delivered : Nat
deriving DecidableEq

/-- Initial state of a `watchDrain` call: `drainer` at its loop head, the
timer goroutine started iff `opt.timer > 0`, the threshold goroutine
started iff `opt.threshold > 0`, the arbiter blocked on `resultCh`. -/
def initSys (opt : options) (files : Nat) (evs : List FsEvent) (errs : List WErr) : Sys :=
  { files := files, evs := evs, errs := errs,
    watcherClosed := false, cancelled := false, resultChClosed := false,
    eventChClosed := false, timerFired := false,
    dpc := DrainPC.loop,
    tpc := if 0 < opt.timer then TimPC.select else TimPC.off,
    hpc := if 0 < opt.threshold then ThrPC.recv 0 0 else ThrPC.off,
    apc := ArbPC.wait, delivered := 0 }

/-- The churn monitor's reaction to one received tag: bump the matching
counter (Go `int` arithmetic, hence through `wrap64`), then check
`creates - removes > int(opt.threshold)`; on excess it moves to its
publishing send, otherwise back to the receive.  (The monitor's local
counter update and comparison are coalesced into the rendezvous
transition; they touch no shared state.) -/
def thrAfterRecv (t : Nat) (creates removes : Int) (e : event) : ThrPC :=
  let c := match e with | event.Remove => (creates, wrap64 (removes + 1))
                        | event.Create => (wrap64 (creates + 1), removes)
  if wrap64 (c.1 - c.2) > intOfUint t then ThrPC.pub else ThrPC.recv c.1 c.2

/-- Small-step transition relation of the whole `watchDrain` invocation,
one constructor per Go statement (or per channel rendezvous).  Channel
semantics: `resultCh` and `opt.eventCh` are unbuffered, so a send
completes only jointly with a matching receive; a send reaching a closed
channel panics; receiving from a closed channel yields `ok == false`.
`timerFires` is the environment step of the deadline elapsing. -/
inductive Step (opt : options) : Sys → Sys → Prop
  | dLoopEmpty (s : Sys) :
      s.dpc = DrainPC.loop → s.files = 0 →
      Step opt s { s with dpc := DrainPC.pubDrained }
  | dLoopNonempty (s : Sys) :
      s.dpc = DrainPC.loop → s.files ≠ 0 →
      Step opt s { s with dpc := DrainPC.select }
  | dRecvEv (s : Sys) (e : FsEvent) (rest : List FsEvent) :
      s.dpc = DrainPC.select → s.watcherClosed = false → s.evs = e :: rest →
      Step opt s { s with dpc := DrainPC.remCheck e, evs := rest }
  | dEvClosed (s : Sys) :
      s.dpc = DrainPC.select → s.watcherClosed = true →
      Step opt s { s with dpc := DrainPC.done,
                          eventChClosed := s.eventChClosed || decide (0 < opt.threshold) }
  | dRecvErr (s : Sys) (er : WErr) (rest : List WErr) :
      s.dpc = DrainPC.select → s.watcherClosed = false → s.errs = er :: rest →
      Step opt s { s with dpc := DrainPC.pubErr er, errs := rest }
  | dRemYesFwd (s : Sys) (e : FsEvent) :
      s.dpc = DrainPC.remCheck e → hasOp e.op removeMask = true → 0 < opt.threshold →
      Step opt s { s with files := dec32 s.files, dpc := DrainPC.fwdRem e }
  | dRemYesNoFwd (s : Sys) (e : FsEvent) :
      s.dpc = DrainPC.remCheck e → hasOp e.op removeMask = true → opt.threshold = 0 →
      Step opt s { s with files := dec32 s.files, dpc := DrainPC.creCheck e }
  | dRemNo (s : Sys) (e : FsEvent) :
      s.dpc = DrainPC.remCheck e → hasOp e.op removeMask = false →
      Step opt s { s with dpc := DrainPC.creCheck e }
  | dFwdRem (s : Sys) (e : FsEvent) (c r : Int) :
      s.dpc = DrainPC.fwdRem e → s.hpc = ThrPC.recv c r →
      Step opt s { s with dpc := DrainPC.creCheck e,
                          hpc := thrAfterRecv opt.threshold c r event.Remove }
  | dCreYesFwd (s : Sys) (e : FsEvent) :
      s.dpc = DrainPC.creCheck e → hasOp e.op createMask = true → 0 < opt.threshold →
      Step opt s { s with files := inc32 s.files, dpc := DrainPC.fwdCre }
  | dCreYesNoFwd (s : Sys) (e : FsEvent) :
      s.dpc = DrainPC.creCheck e → hasOp e.op createMask = true → opt.threshold = 0 →
      Step opt s { s with files := inc32 s.files, dpc := DrainPC.loop }
  | dCreNo (s : Sys) (e : FsEvent) :
      s.dpc = DrainPC.creCheck e → hasOp e.op createMask = false →
      Step opt s { s with dpc := DrainPC.loop }
  | dFwdCre (s : Sys) (c r : Int) :
      s.dpc = DrainPC.fwdCre → s.hpc = ThrPC.recv c r →
      Step opt s { s with dpc := DrainPC.loop,
                          hpc := thrAfterRecv opt.threshold c r event.Create }
  | dPubDrained (s : Sys) :
      s.dpc = DrainPC.pubDrained → s.resultChClosed = false → s.apc = ArbPC.wait →
      Step opt s { s with dpc := DrainPC.drainedWait,
                          apc := ArbPC.cancelStep ⟨true, none⟩,
                          delivered := s.delivered + 1 }
  | dPubDrainedPanic (s : Sys) :
      s.dpc = DrainPC.pubDrained → s.resultChClosed = true →
      Step opt s { s with dpc := DrainPC.panicked }
  | dDrainedWait (s : Sys) :
      s.dpc = DrainPC.drainedWait → s.cancelled = true →
      Step opt s { s with dpc := DrainPC.done,
                          eventChClosed := s.eventChClosed || decide (0 < opt.threshold) }
  | dPubErr (s : Sys) (er : WErr) :
      s.dpc = DrainPC.pubErr er → s.resultChClosed = false → s.apc = ArbPC.wait →
      Step opt s { s with dpc := DrainPC.errWait,
                          apc := ArbPC.cancelStep ⟨false, some er⟩,
                          delivered := s.delivered + 1 }
  | dPubErrPanic (s : Sys) (er : WErr) :
      s.dpc = DrainPC.pubErr er → s.resultChClosed = true →
      Step opt s { s with dpc := DrainPC.panicked }
  | dErrWait (s : Sys) :
      s.dpc = DrainPC.errWait → s.cancelled = true →
      Step opt s { s with dpc := DrainPC.loop }
  | timerFires (s : Sys) :
      0 < opt.timer → s.timerFired = false →
      Step opt s { s with timerFired := true }
  | tFired (s : Sys) :
      s.tpc = TimPC.select → s.timerFired = true →
      Step opt s { s with tpc := TimPC.pub }
  | tCancelled (s : Sys) :
      s.tpc = TimPC.select → s.cancelled = true →
      Step opt s { s with tpc := TimPC.done }
  | tPub (s : Sys) :
      s.tpc = TimPC.pub → s.resultChClosed = false → s.apc = ArbPC.wait →
      Step opt s { s with tpc := TimPC.wait,
                          apc := ArbPC.cancelStep ⟨false, some WErr.errTimerEnded⟩,
                          delivered := s.delivered + 1 }
  | tPubPanic (s : Sys) :
      s.tpc = TimPC.pub → s.resultChClosed = true →
      Step opt s { s with tpc := TimPC.panicked }
  | tWait (s : Sys) :
      s.tpc = TimPC.wait → s.cancelled = true →
      Step opt s { s with tpc := TimPC.done }
  | hClosed (s : Sys) (c r : Int) :
      s.hpc = ThrPC.recv c r → s.eventChClosed = true →
      Step opt s { s with hpc := ThrPC.done }
  | hPub (s : Sys) :
      s.hpc = ThrPC.pub → s.resultChClosed = false → s.apc = ArbPC.wait →
      Step opt s { s with hpc := ThrPC.wait,
                          apc := ArbPC.cancelStep ⟨false, some WErr.errThresholdExceeded⟩,
                          delivered := s.delivered + 1 }
  | hPubPanic (s : Sys) :
      s.hpc = ThrPC.pub → s.resultChClosed = true →
      Step opt s { s with hpc := ThrPC.panicked }
  | hWait (s : Sys) :
      s.hpc = ThrPC.wait → s.cancelled = true →
      Step opt s { s with hpc := ThrPC.done }
  | aCancel (s : Sys) (r : result) :
      s.apc = ArbPC.cancelStep r →
      Step opt s { s with cancelled := true, apc := ArbPC.closeRes r }
  | aCloseRes (s : Sys) (r : result) :
      s.apc = ArbPC.closeRes r →
      Step opt s { s with resultChClosed := true, apc := ArbPC.closeWatcher r }
  | aCloseWatcher (s : Sys) (r : result) :
      s.apc = ArbPC.closeWatcher r →
      Step opt s { s with watcherClosed := true, apc := ArbPC.ret r }

/-- Reachability in the concurrent model. -/
def Reach (opt : options) (s0 s : Sys) : Prop :=
  Relation.ReflTransGen (Step opt) s0 s

/-- Invariant for the single-delivery property: the number of completed
sends on `resultCh` is `0` while the arbiter is still blocked on its one
receive, and `1` from the moment it has consumed a result. -/
def InvC1 (s : Sys) : Prop :=
  s.delivered = if s.apc = ArbPC.wait then 0 else 1

/-- Invariant for the producer-exit discipline: a producer reaches its
normal return only after the cancellation signal or the closure of its
input stream is set. -/
def InvC6 (s : Sys) : Prop :=
  (s.dpc = DrainPC.done → s.cancelled = true ∨ s.watcherClosed = true) ∧
  (s.tpc = TimPC.done → s.cancelled = true) ∧
  (s.hpc = ThrPC.done → s.cancelled = true ∨ s.eventChClosed = true)

/-- Invariant for a watch that starts on an empty directory with no
deadline configured: the counter stays zero, no notification is ever
consumed, the timer goroutine does not exist, the churn monitor never
progresses past its first receive, and the only result that can ever sit
with the arbiter is `result{drained: true}`. -/
def InvC4 (evs0 : List FsEvent) (s : Sys) : Prop :=
  s.files = 0 ∧ s.evs = evs0 ∧ s.tpc = TimPC.off ∧
  (s.hpc = ThrPC.off ∨ s.hpc = ThrPC.recv 0 0 ∨ s.hpc = ThrPC.done) ∧
  ((s.apc = ArbPC.wait ∧ s.resultChClosed = false ∧
      (s.dpc = DrainPC.loop ∨ s.dpc = DrainPC.pubDrained)) ∨
   ((s.apc = ArbPC.cancelStep ⟨true, none⟩ ∨ s.apc = ArbPC.closeRes ⟨true, none⟩ ∨
       s.apc = ArbPC.closeWatcher ⟨true, none⟩ ∨ s.apc = ArbPC.ret ⟨true, none⟩) ∧
    (s.dpc = DrainPC.drainedWait ∨ s.dpc = DrainPC.done)))

/-- A configuration with a deadline (1ns) and no churn monitoring. -/
def optT : options := newOptions 1 0 false

/-- A configuration with no deadline and no churn monitoring. -/
def optNone : options := newOptions 0 0 false

/-- Trace A (configuration `optT`, initially empty directory): the drain
tracker delivers `Drained` and the arbiter cancels, yet the already
elapsed timer commits its own send and panics on the closed channel. -/
def stA0 : Sys := initSys optT 0 [] []

def stA1 : Sys := { stA0 with dpc := DrainPC.pubDrained }

def stA2 : Sys :=
  { stA1 with dpc := DrainPC.drainedWait, apc := ArbPC.cancelStep ⟨true, none⟩,
              delivered := stA1.delivered + 1 }

def stA3 : Sys := { stA2 with cancelled := true, apc := ArbPC.closeRes ⟨true, none⟩ }

def stA4 : Sys := { stA3 with timerFired := true }

def stA5 : Sys := { stA4 with tpc := TimPC.pub }

def stA6 : Sys := { stA5 with resultChClosed := true, apc := ArbPC.closeWatcher ⟨true, none⟩ }

def stA7 : Sys := { stA6 with tpc := TimPC.panicked }

/-- Trace B (configuration `optT`, initially empty directory): the timer
fires and delivers `ErrTimerEnded` before the drain tracker is scheduled,
so the call returns `(false, ErrTimerEnded)` although the directory was
empty from the start. -/
def stB1 : Sys := { stA0 with timerFired := true }

def stB2 : Sys := { stB1 with tpc := TimPC.pub }

def stB3 : Sys :=
  { stB2 with tpc := TimPC.wait, apc := ArbPC.cancelStep ⟨false, some WErr.errTimerEnded⟩,
              delivered := stB2.delivered + 1 }

def stB4 : Sys :=
  { stB3 with cancelled := true, apc := ArbPC.closeRes ⟨false, some WErr.errTimerEnded⟩ }

def stB5 : Sys :=
  { stB4 with resultChClosed := true, apc := ArbPC.closeWatcher ⟨false, some WErr.errTimerEnded⟩ }

def stB6 : Sys :=
  { stB5 with watcherClosed := true, apc := ArbPC.ret ⟨false, some WErr.errTimerEnded⟩ }

/-- Trace C (configuration `optNone`, initially empty directory): the
drain tracker delivers `Drained`; the arbiter runs its full teardown and
returns while the tracker is still parked on the cancellation signal. -/
def stC0 : Sys := initSys optNone 0 [] []

def stC1 : Sys := { stC0 with dpc := DrainPC.pubDrained }

def stC2 : Sys :=
  { stC1 with dpc := DrainPC.drainedWait, apc := ArbPC.cancelStep ⟨true, none⟩,
              delivered := stC1.delivered + 1 }

def stC3 : Sys := { stC2 with cancelled := true, apc := ArbPC.closeRes ⟨true, none⟩ }

def stC4 : Sys := { stC3 with resultChClosed := true, apc := ArbPC.closeWatcher ⟨true, none⟩ }

def stC5 : Sys := { stC4 with watcherClosed := true, apc := ArbPC.ret ⟨true, none⟩ }

def stC6 : Sys :=
  { stC5 with dpc := DrainPC.done,
              eventChClosed := stC5.eventChClosed || decide (0 < optNone.threshold) }

/-- A create notification for a regular file. -/
def fileCreateEv : FsEvent := ⟨createMask, "temp3.txt", false⟩

/-- Trace D (configuration `optNone`, one file, one pending error and one
pending create event): the drain tracker publishes the watcher error,
the arbiter consumes it and cancels, and the tracker — whose loop does not
return after the error case — then consumes and applies the create
notification. -/
def stD0 : Sys := initSys optNone 1 [fileCreateEv] [WErr.watcherErr 7]

def stD1 : Sys := { stD0 with dpc := DrainPC.select }

def stD2 : Sys := { stD1 with dpc := DrainPC.pubErr (WErr.watcherErr 7), errs := [] }

def stD3 : Sys :=
  { stD2 with dpc := DrainPC.errWait, apc := ArbPC.cancelStep ⟨false, some (WErr.watcherErr 7)⟩,
              delivered := stD2.delivered + 1 }

def stD4 : Sys :=
  { stD3 with cancelled := true, apc := ArbPC.closeRes ⟨false, some (WErr.watcherErr 7)⟩ }

def stD5 : Sys := { stD4 with dpc := DrainPC.loop }

def stD6 : Sys := { stD5 with dpc := DrainPC.select }

def stD7 : Sys := { stD6 with dpc := DrainPC.remCheck fileCreateEv, evs := [] }

def stD8 : Sys := { stD7 with dpc := DrainPC.creCheck fileCreateEv }

def stD9 : Sys := { stD8 with files := inc32 stD8.files, dpc := DrainPC.loop }

theorem u32_pos : 0 < u32 := by decide

theorem inc32_eq (n : Nat) (h : n + 1 < u32) : inc32 n = n + 1 := by
  unfold inc32
  exact Nat.mod_eq_of_lt h

theorem dec32_eq (n : Nat) (h1 : 1 ≤ n) (h2 : n < u32) : dec32 n = n - 1 := by
  unfold dec32
  have hrw : n + u32 - 1 = (n - 1) + u32 := by omega
  rw [hrw, Nat.add_mod_right, Nat.mod_eq_of_lt (by omega)]

theorem excessL_nil : excessL [] = 0 := by
  simp [excessL]

theorem excessL_cons_create (l : List event) :
    excessL (event.Create :: l) = 1 + excessL l := by
  simp [excessL, List.countP_cons]
  ring

theorem excessL_cons_remove (l : List event) :
    excessL (event.Remove :: l) = excessL l - 1 := by
  simp [excessL, List.countP_cons]
  ring

theorem wrap64_eq_self (n : Int) (h1 : -(2 ^ 63) ≤ n) (h2 : n < 2 ^ 63) :
    wrap64 n = n := by
  have e1 : ((2 : Int) ^ 63) = 9223372036854775808 := by norm_num
  have e2 : ((2 : Int) ^ 64) = 18446744073709551616 := by norm_num
  unfold wrap64
  rw [e1, e2] at *
  rw [Int.emod_eq_of_lt (by omega) (by omega)]
  omega

theorem thresholdRun_shape (evs : List event) :
    ∀ (t : Nat) (c r : Int),
      thresholdRun t c r evs = none ∨ thresholdRun t c r evs = some thrRes := by
  induction evs with
  | nil => intro t c r; left; rfl
  | cons e rest ih =>
    intro t c r
    cases e with
    | Create =>
      by_cases hgt : wrap64 (wrap64 (c + 1) - r) > intOfUint t
      · right; simp [thresholdRun, hgt]
      · simpa [thresholdRun, hgt] using ih t (wrap64 (c + 1)) r
    | Remove =>
      by_cases hgt : wrap64 (c - wrap64 (r + 1)) > intOfUint t
      · right; simp [thresholdRun, hgt]
      · simpa [thresholdRun, hgt] using ih t c (wrap64 (r + 1))

theorem thresholdRun_some_iff (evs : List event) :
    ∀ (t : Nat) (c r : Int), 0 ≤ c → 0 ≤ r →
      c + evs.length < 2 ^ 63 → r + evs.length < 2 ^ 63 →
      (thresholdRun t c r evs = some thrRes ↔
        ∃ k, k < evs.length ∧ c - r + excessL (List.take (k + 1) evs) > intOfUint t) := by
  have hp63 : (0 : Int) < 2 ^ 63 := by positivity
  induction evs with
  | nil => intro t c r _ _ _ _; simp [thresholdRun]
  | cons e rest ih =>
    intro t c r hc hr hcb hrb
    have hnn : (0 : Int) ≤ (rest.length : Int) := Int.natCast_nonneg _
    have hcb2 : c + (rest.length : Int) + 1 < 2 ^ 63 := by
      have : ((e :: rest).length : Int) = (rest.length : Int) + 1 := by simp
      rw [this] at hcb; linarith
    have hrb2 : r + (rest.length : Int) + 1 < 2 ^ 63 := by
      have : ((e :: rest).length : Int) = (rest.length : Int) + 1 := by simp
      rw [this] at hrb; linarith
    cases e with
    | Create =>
      have hwc : wrap64 (c + 1) = c + 1 :=
        wrap64_eq_self _ (by linarith) (by linarith)
      have hws : wrap64 (c + 1 - r) = c + 1 - r :=
        wrap64_eq_self _ (by linarith) (by linarith)
      simp only [thresholdRun, hwc, hws]
      by_cases hgt : c + 1 - r > intOfUint t
      · simp only [if_pos hgt]
        constructor
        · intro _
          refine ⟨0, by simp, ?_⟩
          simp only [List.take_succ_cons, List.take_zero, excessL_cons_create, excessL_nil]
          linarith
        · intro _; trivial
      · rw [if_neg hgt,
          ih t (c + 1) r (by linarith) hr (by linarith) (by linarith)]
        constructor
        · rintro ⟨j, hj, hx⟩
          refine ⟨j + 1, by simpa using Nat.succ_lt_succ hj, ?_⟩
          simp only [List.take_succ_cons, excessL_cons_create]
          linarith
        · rintro ⟨k, hk, hx⟩
          cases k with
          | zero =>
            exfalso
            simp only [List.take_succ_cons, List.take_zero, excessL_cons_create,
              excessL_nil] at hx
            linarith
          | succ j =>
            refine ⟨j, by simpa using Nat.lt_of_succ_lt_succ hk, ?_⟩
            simp only [List.take_succ_cons, excessL_cons_create] at hx
            linarith
    | Remove =>
      have hwr : wrap64 (r + 1) = r + 1 :=
        wrap64_eq_self _ (by linarith) (by linarith)
      have hws : wrap64 (c - (r + 1)) = c - (r + 1) :=
        wrap64_eq_self _ (by linarith) (by linarith)
      simp only [thresholdRun, hwr, hws]
      by_cases hgt : c - (r + 1) > intOfUint t
      · simp only [if_pos hgt]
        constructor
        · intro _
          refine ⟨0, by simp, ?_⟩
          simp only [List.take_succ_cons, List.take_zero, excessL_cons_remove, excessL_nil]
          linarith
        · intro _; trivial
      · rw [if_neg hgt,
          ih t c (r + 1) hc (by linarith) (by linarith) (by linarith)]
        constructor
        · rintro ⟨j, hj, hx⟩
          refine ⟨j + 1, by simpa using Nat.succ_lt_succ hj, ?_⟩
          simp only [List.take_succ_cons, excessL_cons_remove]
          linarith
        · rintro ⟨k, hk, hx⟩
          cases k with
          | zero =>
            exfalso
            simp only [List.take_succ_cons, List.take_zero, excessL_cons_remove,
              excessL_nil] at hx
            linarith
          | succ j =>
            refine ⟨j, by simpa using Nat.lt_of_succ_lt_succ hk, ?_⟩
            simp only [List.take_succ_cons, excessL_cons_remove] at hx
            linarith

theorem thrAfterRecv_ne_done (t : Nat) (c r : Int) (e : event) :
    thrAfterRecv t c r e ≠ ThrPC.done := by
  unfold thrAfterRecv
  cases e <;> dsimp only <;> split <;> simp

theorem stepInvC1 {opt : options} {s s' : Sys} (h : Step opt s s') (hi : InvC1 s) :
    InvC1 s' := by
  cases h <;> simp_all [InvC1]

theorem reachInvC1 {opt : options} {s0 s : Sys} (h : Reach opt s0 s) (h0 : InvC1 s0) :
    InvC1 s := by
  induction h with
  | refl => exact h0
  | tail _ hstep ih => exact stepInvC1 hstep ih

theorem stepInvC6 {opt : options} {s s' : Sys} (h : Step opt s s') (hi : InvC6 s) :
    InvC6 s' := by
  cases h with
  | dFwdRem e c r h1 h2 =>
      refine ⟨?_, ?_, ?_⟩ <;> simp_all [InvC6]
      intro hd
      exact absurd hd (thrAfterRecv_ne_done _ _ _ _)
  | dFwdCre c r h1 h2 =>
      refine ⟨?_, ?_, ?_⟩ <;> simp_all [InvC6]
      intro hd
      exact absurd hd (thrAfterRecv_ne_done _ _ _ _)
  | _ => simp_all [InvC6] <;> tauto

theorem reachInvC6 {opt : options} {s0 s : Sys} (h : Reach opt s0 s) (h0 : InvC6 s0) :
    InvC6 s := by
  induction h with
  | refl => exact h0
  | tail _ hstep ih => exact stepInvC6 hstep ih

theorem stepInvC4 {opt : options} {evs0 : List FsEvent} {s s' : Sys}
    (ht : opt.timer = 0) (h : Step opt s s') (hi : InvC4 evs0 s) : InvC4 evs0 s' := by
  cases h <;> simp_all [InvC4]

theorem reachInvC4 {opt : options} {evs0 : List FsEvent} {s0 s : Sys}
    (ht : opt.timer = 0) (h : Reach opt s0 s) (h0 : InvC4 evs0 s0) : InvC4 evs0 s := by
  induction h with
  | refl => exact h0
  | tail _ hstep ih => exact stepInvC4 ht hstep ih

theorem reachStA5 : Reach optT stA0 stA5 :=
  Relation.ReflTransGen.tail
    (Relation.ReflTransGen.tail
      (Relation.ReflTransGen.tail
        (Relation.ReflTransGen.tail
          (Relation.ReflTransGen.tail Relation.ReflTransGen.refl
            (Step.dLoopEmpty stA0 rfl rfl))
          (Step.dPubDrained stA1 rfl rfl rfl))
        (Step.aCancel stA2 ⟨true, none⟩ rfl))
      (Step.timerFires stA3 (by decide) rfl))
    (Step.tFired stA4 rfl rfl)

theorem reachStA7 : Reach optT stA5 stA7 :=
  Relation.ReflTransGen.tail
    (Relation.ReflTransGen.tail Relation.ReflTransGen.refl
      (Step.aCloseRes stA5 ⟨true, none⟩ rfl))
    (Step.tPubPanic stA6 rfl rfl)

theorem reachStB6 : Reach optT stA0 stB6 :=
  Relation.ReflTransGen.tail
    (Relation.ReflTransGen.tail
      (Relation.ReflTransGen.tail
        (Relation.ReflTransGen.tail
          (Relation.ReflTransGen.tail
            (Relation.ReflTransGen.tail Relation.ReflTransGen.refl
              (Step.timerFires stA0 (by decide) rfl))
            (Step.tFired stB1 rfl rfl))
          (Step.tPub stB2 rfl rfl rfl))
        (Step.aCancel stB3 ⟨false, some WErr.errTimerEnded⟩ rfl))
      (Step.aCloseRes stB4 ⟨false, some WErr.errTimerEnded⟩ rfl))
    (Step.aCloseWatcher stB5 ⟨false, some WErr.errTimerEnded⟩ rfl)

theorem reachStC5 : Reach optNone stC0 stC5 :=
  Relation.ReflTransGen.tail
    (Relation.ReflTransGen.tail
      (Relation.ReflTransGen.tail
        (Relation.ReflTransGen.tail
          (Relation.ReflTransGen.tail Relation.ReflTransGen.refl
            (Step.dLoopEmpty stC0 rfl rfl))
          (Step.dPubDrained stC1 rfl rfl rfl))
        (Step.aCancel stC2 ⟨true, none⟩ rfl))
      (Step.aCloseRes stC3 ⟨true, none⟩ rfl))
    (Step.aCloseWatcher stC4 ⟨true, none⟩ rfl)

theorem reachStC6 : Reach optNone stC0 stC6 :=
  Relation.ReflTransGen.tail reachStC5 (Step.dDrainedWait stC5 rfl rfl)

theorem reachStD9 : Reach optNone stD0 stD9 :=
  Relation.ReflTransGen.tail
    (Relation.ReflTransGen.tail
      (Relation.ReflTransGen.tail
        (Relation.ReflTransGen.tail
          (Relation.ReflTransGen.tail
            (Relation.ReflTransGen.tail
              (Relation.ReflTransGen.tail
                (Relation.ReflTransGen.tail
                  (Relation.ReflTransGen.tail Relation.ReflTransGen.refl
                    (Step.dLoopNonempty stD0 rfl (by decide)))
                  (Step.dRecvErr stD1 (WErr.watcherErr 7) [] rfl rfl rfl))
                (Step.dPubErr stD2 (WErr.watcherErr 7) rfl rfl rfl))
              (Step.aCancel stD3 ⟨false, some (WErr.watcherErr 7)⟩ rfl))
            (Step.dErrWait stD4 rfl rfl))
          (Step.dLoopNonempty stD5 rfl (by decide)))
        (Step.dRecvEv stD6 fileCreateEv [] rfl rfl rfl))
      (Step.dRemNo stD7 fileCreateEv rfl (by decide)))
    (Step.dCreYesNoFwd stD8 fileCreateEv rfl (by decide) rfl)

theorem drainerRun_exit_closes (opt : options) (script : List Item) :
    ∀ files : Nat, 0 < opt.threshold → (drainerRun opt files script).exited = true →
      (drainerRun opt files script).eventChClosed = true := by
  induction script with
  | nil =>
    intro files ht hx
    by_cases hf : files = 0
    · simp [drainerRun, hf, ht]
    · simp [drainerRun, hf] at hx
  | cons i rest ih =>
    intro files ht hx
    cases i with
    | ev e =>
      by_cases hf : files = 0
      · simp [drainerRun, hf, ht]
      · simp only [drainerRun, if_neg hf] at hx ⊢
        exact ih _ ht hx
    | evClosed =>
      by_cases hf : files = 0 <;> simp [drainerRun, hf, ht]
    | errItem er =>
      by_cases hf : files = 0
      · simp [drainerRun, hf, ht]
      · simp only [drainerRun, if_neg hf] at hx ⊢
        exact ih _ ht hx
    | errClosed =>
      by_cases hf : files = 0
      · simp [drainerRun, hf, ht]
      · simp only [drainerRun, if_neg hf] at hx ⊢
        exact ih _ ht hx

/-- C2 (counterexample): a create notification whose subject is a
directory is *not* filtered out by the drain tracker: starting from
`fileCount = 1` with churn monitoring enabled, the event raises the count
to `2` and forwards a `Create` tag to the churn stream, contradicting the
claim that directory events leave the count unchanged and forward
nothing. -/
theorem c2_counterexample :
    (⟨createMask, "sub", true⟩ : FsEvent).subjectIsDir = true ∧
    (drainerRun (newOptions 0 1 false) 1 [Item.ev ⟨createMask, "sub", true⟩]).files = 2 ∧
    (drainerRun (newOptions 0 1 false) 1 [Item.ev ⟨createMask, "sub", true⟩]).fwd
      = [event.Create] := by
  refine ⟨rfl, ?_, ?_⟩ <;> decide

/-- C2 (amended): the drain tracker never inspects whether the subject of
a notification is a directory, nor its name: over any input script, any
relabelling of every event's name and (ghost) directory flag that
preserves the operation masks leaves the counter evolution, the forwards
to the churn stream, the publications and the exit/closure behaviour
unchanged.  A directory event is therefore processed exactly like a file
event with the same operation mask. -/
theorem c2_dir_events_not_filtered (opt : options) (script : List Item)
    (f : FsEvent → String) (g : FsEvent → Bool) :
    ∀ files : Nat,
      (drainerRun opt files (script.map (relabelItem f g))).files
          = (drainerRun opt files script).files ∧
      (drainerRun opt files (script.map (relabelItem f g))).fwd
          = (drainerRun opt files script).fwd ∧
      (drainerRun opt files (script.map (relabelItem f g))).pubs
          = (drainerRun opt files script).pubs ∧
      (drainerRun opt files (script.map (relabelItem f g))).exited
          = (drainerRun opt files script).exited ∧
      (drainerRun opt files (script.map (relabelItem f g))).eventChClosed
          = (drainerRun opt files script).eventChClosed := by
  induction script with
  | nil => intro files; simp
  | cons i rest ih =>
    intro files
    cases i with
    | ev e =>
      by_cases hf : files = 0
      · simp [drainerRun, hf, relabelItem]
      · have happ : applyFsEvent opt files (⟨e.op, f e, g e⟩ : FsEvent)
            = applyFsEvent opt files e := rfl
        have hIH := ih (applyFsEvent opt files e).1
        simp only [List.map_cons, relabelItem, drainerRun, if_neg hf, happ]
        exact ⟨hIH.1, by rw [hIH.2.1], hIH.2.2.1, hIH.2.2.2.1, hIH.2.2.2.2⟩
    | evClosed =>
      by_cases hf : files = 0 <;> simp [drainerRun, hf, relabelItem]
    | errItem er =>
      by_cases hf : files = 0
      · simp [drainerRun, hf, relabelItem]
      · have hIH := ih files
        simp only [List.map_cons, relabelItem, drainerRun, if_neg hf]
        exact ⟨hIH.1, hIH.2.1, by rw [hIH.2.2.1], hIH.2.2.2.1, hIH.2.2.2.2⟩
    | errClosed =>
      by_cases hf : files = 0
      · simp [drainerRun, hf, relabelItem]
      · have hIH := ih files
        simp only [List.map_cons, relabelItem, drainerRun, if_neg hf]
        exact hIH

/-- C3 (counterexample): the comparison in `threshold` is
`creates - removes > int(opt.threshold)`, and the Go conversion `int` of
the `uint` threshold `2^63` wraps to a negative value, so with that
configured threshold the monitor publishes `ThresholdExceeded` after a
single create — an excess of `1`, which does not strictly exceed the
threshold — contradicting the claimed if-and-only-if for every
`T ≥ 1`. -/
theorem c3_counterexample :
    (1 : Nat) ≤ 2 ^ 63 ∧
    excessL [event.Create] ≤ ((2 ^ 63 : Nat) : Int) ∧
    thresholdRun (2 ^ 63) 0 0 [event.Create] = some thrRes := by
  refine ⟨by norm_num, by decide, by decide⟩

/-- C3 (amended): for every threshold `1 ≤ T < 2^63` (those whose Go
`int` conversion is value-preserving) and every forwarded sequence of
fewer than `2^63` events (within which the monitor's wrapping `int64`
counters provably cannot overflow — every physically realizable run), the
churn monitor publishes `ThresholdExceeded` iff the running excess of
creates over removes strictly exceeds `T` immediately after consuming
some event; with `T = 1` an excess of exactly `1` is tolerated and an
excess of `2` is not. -/
theorem c3_threshold_iff :
    (∀ (t : Nat) (evs : List event), 1 ≤ t → t < 2 ^ 63 → evs.length < 2 ^ 63 →
        (thresholdRun t 0 0 evs = some thrRes ↔
          ∃ k, k < evs.length ∧ excessL (List.take (k + 1) evs) > (t : Int))) ∧
    thresholdRun 1 0 0 [event.Create] = none ∧
    thresholdRun 1 0 0 [event.Create, event.Create] = some thrRes := by
  refine ⟨?_, by decide, by decide⟩
  intro t evs h1 h2 h3
  have hio : intOfUint t = (t : Int) := by
    unfold intOfUint
    exact if_pos h2
  have h3i : ((evs.length : Int)) < 2 ^ 63 := by exact_mod_cast h3
  rw [thresholdRun_some_iff evs t 0 0 le_rfl le_rfl (by simpa using h3i)
      (by simpa using h3i), hio]
  constructor
  · rintro ⟨k, hk, hx⟩
    exact ⟨k, hk, by linarith⟩
  · rintro ⟨k, hk, hx⟩
    exact ⟨k, hk, by linarith⟩

theorem c3_threshold_iff_witness :
    (1 : Nat) ≤ 1 ∧ thresholdRun 1 0 0 [event.Create, event.Create] = some thrRes :=
  ⟨le_refl 1,
   (c3_threshold_iff.1 1 [event.Create, event.Create] (le_refl 1) (by norm_num)
      (by norm_num)).mpr ⟨1, by decide, by decide⟩⟩

/-- C5: the value `watchDrain` returns is determined by the received
result exactly as claimed — `(true, nil)` for `Drained`,
`(false, ErrTimerEnded)` for the elapsed deadline,
`(false, ErrThresholdExceeded)` for exceeded churn, `(false, e)` for a
watch failure with underlying error `e` — and a non-nil error is never
paired with `drained = true`. -/
theorem c5_outcome_return_mapping :
    watchDrainReturn (resultOf Outcome.Drained) = (true, none) ∧
    watchDrainReturn (resultOf Outcome.DeadlineExceeded)
      = (false, some WErr.errTimerEnded) ∧
    watchDrainReturn (resultOf Outcome.ThresholdExceeded)
      = (false, some WErr.errThresholdExceeded) ∧
    (∀ e, watchDrainReturn (resultOf (Outcome.WatchFailure e)) = (false, some e)) ∧
    (∀ res, (watchDrainReturn res).1 = true → (watchDrainReturn res).2 = none) := by
  refine ⟨rfl, rfl, rfl, fun e => rfl, ?_⟩
  intro res h
  cases hr : res.err with
  | none => simp [watchDrainReturn, hr]
  | some e => simp [watchDrainReturn, hr] at h

theorem c5_outcome_return_mapping_witness :
    (watchDrainReturn (resultOf Outcome.Drained)).1 = true ∧
    (watchDrainReturn (resultOf Outcome.Drained)).2 = none :=
  ⟨rfl, c5_outcome_return_mapping.2.2.2.2 (resultOf Outcome.Drained) rfl⟩

/-- C7 (amended): when the error stream yields an error while the counter
is nonzero, the drain tracker immediately publishes `result{err: err}` as
its first outcome, whatever else the input later holds; it then blocks on
the cancellation signal, but (see the counterexample) its loop resumes
afterwards rather than stopping. -/
theorem c7_error_published_first (opt : options) (files : Nat) (er : WErr)
    (rest : List Item) (h : files ≠ 0) :
    (drainerRun opt files (Item.errItem er :: rest)).pubs.head? = some ⟨false, some er⟩ := by
  simp [drainerRun, h]

theorem c7_error_published_first_witness :
    (1 : Nat) ≠ 0 ∧
    (drainerRun optNone 1 [Item.errItem (WErr.watcherErr 0)]).pubs.head?
      = some ⟨false, some (WErr.watcherErr 0)⟩ :=
  ⟨one_ne_zero, c7_error_published_first optNone 1 (WErr.watcherErr 0) [] one_ne_zero⟩

/-- C7 (counterexample): with one file, a pending watcher error and a
pending create notification, the drain tracker publishes the error (the
arbiter consumes it and cancels), but then — because the error case of the
`select` does not return — it consumes and applies the create notification
too: in the final state the event script is exhausted and the counter has
been incremented to `2`.  The claim that the tracker "stops processing:
it does not wait for or consume any further notification events after the
error" is false. -/
theorem c7_counterexample :
    Reach optNone stD0 stD9 ∧
    stD0.files = 1 ∧ stD0.evs = [fileCreateEv] ∧ stD0.errs = [WErr.watcherErr 7] ∧
    stD9.apc = ArbPC.closeRes ⟨false, some (WErr.watcherErr 7)⟩ ∧
    stD9.files = 2 ∧ stD9.evs = [] := by
  refine ⟨reachStD9, rfl, rfl, rfl, rfl, by decide, rfl⟩

/-- C8: the drain tracker's deferred `close(opt.eventCh)` runs on every
function exit when churn monitoring is enabled, and a churn monitor whose
forwarded stream closes before the threshold condition ever triggers
returns silently, publishing nothing (stated for forwarded sequences of
fewer than `2^63` events, within which the monitor's wrapping `int64`
counters provably cannot overflow — every physically realizable run). -/
theorem c8_churn_stream_lifecycle :
    (∀ (opt : options) (script : List Item) (files : Nat), 0 < opt.threshold →
        (drainerRun opt files script).exited = true →
        (drainerRun opt files script).eventChClosed = true) ∧
    (∀ (t : Nat) (evs : List event), evs.length < 2 ^ 63 →
        (∀ k, k < evs.length → excessL (List.take (k + 1) evs) ≤ intOfUint t) →
        thresholdRun t 0 0 evs = none) := by
  constructor
  · intro opt script files ht hx
    exact drainerRun_exit_closes opt script files ht hx
  · intro t evs hlen hbelow
    rcases thresholdRun_shape evs t 0 0 with h | h
    · exact h
    · exfalso
      have h3i : ((evs.length : Int)) < 2 ^ 63 := by exact_mod_cast hlen
      rcases (thresholdRun_some_iff evs t 0 0 le_rfl le_rfl (by simpa using h3i)
          (by simpa using h3i)).mp h with ⟨k, hk, hx⟩
      have hle := hbelow k hk
      linarith

theorem c8_churn_stream_lifecycle_witness :
    (0 < (newOptions 0 1 false).threshold ∧
      (drainerRun (newOptions 0 1 false) 0 []).eventChClosed = true) ∧
    thresholdRun 1 0 0 [event.Create] = none :=
  ⟨⟨Nat.zero_lt_one, c8_churn_stream_lifecycle.1 (newOptions 0 1 false) [] 0
      Nat.zero_lt_one rfl⟩,
   c8_churn_stream_lifecycle.2 1 [event.Create] (by norm_num) (by decide)⟩

/-- C10: for a consumed notification whose operation mask contains both
`Remove` and `Create`, the drain tracker applies the decrement before the
increment and forwards `Remove` then `Create` in that order; a
notification whose mask contains neither bit (Write, Rename, Chmod)
changes nothing and forwards nothing. -/
theorem c10_remove_before_create (opt : options) (files : Nat) (e : FsEvent)
    (rest : List Item) (hne : files ≠ 0) :
    (hasOp e.op removeMask = true → hasOp e.op createMask = true → 0 < opt.threshold →
      (drainerRun opt files (Item.ev e :: rest)).files
          = (drainerRun opt (inc32 (dec32 files)) rest).files ∧
      (drainerRun opt files (Item.ev e :: rest)).fwd
          = event.Remove :: event.Create :: (drainerRun opt (inc32 (dec32 files)) rest).fwd ∧
      (drainerRun opt files (Item.ev e :: rest)).pubs
          = (drainerRun opt (inc32 (dec32 files)) rest).pubs) ∧
    (hasOp e.op removeMask = false → hasOp e.op createMask = false →
      (drainerRun opt files (Item.ev e :: rest)).files
          = (drainerRun opt files rest).files ∧
      (drainerRun opt files (Item.ev e :: rest)).fwd
          = (drainerRun opt files rest).fwd ∧
      (drainerRun opt files (Item.ev e :: rest)).pubs
          = (drainerRun opt files rest).pubs) := by
  constructor
  · intro h1 h2 h3
    refine ⟨?_, ?_, ?_⟩ <;> simp [drainerRun, applyFsEvent, hne, h1, h2, h3]
  · intro h1 h2
    refine ⟨?_, ?_, ?_⟩ <;> simp [drainerRun, applyFsEvent, hne, h1, h2]

theorem c10_remove_before_create_witness :
    (1 : Nat) ≠ 0 ∧
    (drainerRun (newOptions 0 1 false) 1
        [Item.ev ⟨createMask + removeMask, "t.txt", false⟩]).fwd
      = event.Remove :: event.Create ::
          (drainerRun (newOptions 0 1 false) (inc32 (dec32 1)) []).fwd :=
  ⟨one_ne_zero,
   ((c10_remove_before_create (newOptions 0 1 false) 1
        ⟨createMask + removeMask, "t.txt", false⟩ [] one_ne_zero).1
      (by decide) (by decide) Nat.zero_lt_one).2.1⟩

/-- C1 (counterexample): with a deadline configured and the directory
initially empty, the drain tracker delivers `Drained` and the arbiter
consumes it and cancels; the already elapsed timer may nevertheless commit
to its own send of `ErrTimerEnded` (its `select` chooses among ready
cases), i.e. a producer attempts a further delivery after the arbiter has
consumed the first result and cancelled — and that attempt panics once the
arbiter closes `resultCh`. -/
theorem c1_counterexample :
    Reach optT stA0 stA5 ∧ stA5.delivered = 1 ∧ stA5.cancelled = true ∧
    stA5.tpc = TimPC.pub ∧ Reach optT stA5 stA7 ∧ stA7.tpc = TimPC.panicked :=
  ⟨reachStA5, rfl, rfl, rfl, reachStA7, rfl⟩

/-- C1 (amended): in every reachable state of a watch at most one delivery
to `resultCh` has completed — the arbiter performs a single receive, so
the caller consumes at most one terminal result, and a state in which
`watchDrain` has returned has exactly one completed delivery.  (A producer
may still *attempt* a further send after cancellation; the attempt never
completes as a delivery — in Go it panics when the channel closes.) -/
theorem c1_single_delivery (opt : options) (n : Nat) (evs : List FsEvent)
    (errs : List WErr) (s : Sys) (h : Reach opt (initSys opt n evs errs) s) :
    s.delivered ≤ 1 ∧ (∀ r, s.apc = ArbPC.ret r → s.delivered = 1) := by
  have h0 : InvC1 (initSys opt n evs errs) := by simp [InvC1, initSys]
  have hs := reachInvC1 h h0
  unfold InvC1 at hs
  constructor
  · rw [hs]; split <;> omega
  · intro r hr
    rw [hs, hr]
    simp

theorem c1_single_delivery_witness : stC5.delivered = 1 :=
  (c1_single_delivery optNone 0 [] [] stC5 reachStC5).2 ⟨true, none⟩ rfl

/-- C4 (counterexample): the claim promises `(true, nil)` for an initially
empty directory regardless of the deadline setting, but with a deadline
configured the timer races the drain tracker: in this reachable execution
the watch on an initially empty directory returns
`(false, ErrTimerEnded)`. -/
theorem c4_counterexample :
    (0 : Nat) < optT.timer ∧ stA0.files = 0 ∧
    Reach optT stA0 stB6 ∧
    stB6.apc = ArbPC.ret ⟨false, some WErr.errTimerEnded⟩ ∧
    watchDrainReturn ⟨false, some WErr.errTimerEnded⟩
      = (false, some WErr.errTimerEnded) :=
  ⟨Nat.zero_lt_one, rfl, reachStB6, rfl, rfl⟩

/-- C4 (amended): if the initial scan yields `fileCount = 0`, the drain
tracker publishes `Drained` without ever consuming a notification event,
regardless of the verbose, deadline or threshold settings; and whenever no
deadline is configured, every return of the watch call carries
`result{drained: true}` — mapped to `(true, nil)` — with the notification
script untouched.  (With a deadline configured the timer may win the race
instead; see the counterexample.) -/
theorem c4_empty_dir_drains :
    (∀ (opt : options) (script : List Item),
        (drainerRun opt 0 script).pubs = [⟨true, none⟩] ∧
        (drainerRun opt 0 script).consumed = [] ∧
        (drainerRun opt 0 script).exited = true) ∧
    (∀ (opt : options) (evs : List FsEvent) (errs : List WErr) (s : Sys) (r : result),
        opt.timer = 0 → Reach opt (initSys opt 0 evs errs) s → s.apc = ArbPC.ret r →
        r = ⟨true, none⟩ ∧ watchDrainReturn r = (true, none) ∧ s.evs = evs) := by
  constructor
  · intro opt script
    refine ⟨?_, ?_, ?_⟩ <;>
      (cases script with
        | nil => simp [drainerRun]
        | cons i rest => cases i <;> simp [drainerRun])
  · intro opt evs errs s r ht h hret
    have h0 : InvC4 evs (initSys opt 0 evs errs) := by
      refine ⟨rfl, rfl, ?_, ?_, Or.inl ⟨rfl, rfl, Or.inl rfl⟩⟩
      · simp [initSys, ht]
      · simp only [initSys]
        split <;> simp
    have hs := reachInvC4 ht h h0
    rcases hs with ⟨hf, he, htpc, hh, hphase⟩
    rcases hphase with ⟨ha, hrc, hdp⟩ | ⟨ha, hd⟩
    · rw [hret] at ha
      simp at ha
    · have hr : r = (⟨true, none⟩ : result) := by
        rcases ha with ha | ha | ha | ha <;> rw [hret] at ha <;> simp_all
      exact ⟨hr, by rw [hr]; rfl, he⟩

theorem c4_empty_dir_drains_witness :
    (drainerRun optNone 0 []).pubs = [(⟨true, none⟩ : result)] ∧
    watchDrainReturn ⟨true, none⟩ = (true, none) :=
  ⟨(c4_empty_dir_drains.1 optNone []).1,
   (c4_empty_dir_drains.2 optNone [] [] stC5 ⟨true, none⟩ rfl reachStC5 rfl).2.1⟩

/-- C6 (counterexample): in this reachable execution `watchDrain` has
returned (`apc = ret`) while the drain tracker is still parked on the
cancellation signal (`dpc = drainedWait`, not yet `done`): there is no
join, so a background task can still be running when the call returns. -/
theorem c6_counterexample :
    Reach optNone stC0 stC5 ∧ stC5.apc = ArbPC.ret ⟨true, none⟩ ∧
    stC5.dpc = DrainPC.drainedWait ∧ stC5.dpc ≠ DrainPC.done :=
  ⟨reachStC5, rfl, rfl, by decide⟩

/-- C6 (amended): every producer that reaches its normal exit does so only
after the shared cancellation signal or its input stream's closure is set
(drain tracker: cancellation or the watcher's closure; timer:
cancellation; churn monitor: cancellation or the forwarded stream's
closure).  Termination is however not synchronized with `watchDrain`'s
return: a task may still be running when the call returns (see the
counterexample). -/
theorem c6_producer_exit_discipline (opt : options) (n : Nat) (evs : List FsEvent)
    (errs : List WErr) (s : Sys) (h : Reach opt (initSys opt n evs errs) s) :
    (s.dpc = DrainPC.done → s.cancelled = true ∨ s.watcherClosed = true) ∧
    (s.tpc = TimPC.done → s.cancelled = true) ∧
    (s.hpc = ThrPC.done → s.cancelled = true ∨ s.eventChClosed = true) := by
  have h0 : InvC6 (initSys opt n evs errs) := by
    refine ⟨fun hd => ?_, fun htp => ?_, fun hh => ?_⟩
    · simp [initSys] at hd
    · simp only [initSys] at htp
      split at htp <;> simp_all
    · simp only [initSys] at hh
      split at hh <;> simp_all
  exact reachInvC6 h h0

theorem c6_producer_exit_discipline_witness :
    stC6.cancelled = true ∨ stC6.watcherClosed = true :=
  (c6_producer_exit_discipline optNone 0 [] [] stC6 reachStC6).1 rfl

/-- C9: in every reachable state of the drain tracker (equivalently,
after any consumed prefix of the input, since the run is deterministic and
prefix-monotone), the `uint32` counter equals the initial scan count plus
the consumed create events minus the consumed remove events, computed in
`Int` with no modular wrap-around, and it never goes below zero: every
decrement is performed under the loop guard `!d.isEmpty()`, i.e. with
`fileCount ≥ 1`.  The hypothesis bounds the run away from *upward*
`uint32` overflow (more than `2^32` simultaneous files), which the 32-bit
counter cannot represent. -/
theorem c9_files_accounting (opt : options) (script : List Item) :
    ∀ files : Nat, files + evCreates (scriptEvents script) < u32 →
      ((drainerRun opt files script).files : Int)
          = (files : Int) + (evCreates (drainerRun opt files script).consumed : Int)
            - (evRemoves (drainerRun opt files script).consumed : Int) ∧
      0 ≤ ((drainerRun opt files script).files : Int) := by
  induction script with
  | nil =>
    intro files hb
    refine ⟨?_, Int.natCast_nonneg _⟩
    by_cases hf : files = 0 <;> simp [drainerRun, hf, evCreates, evRemoves]
  | cons i rest ih =>
    intro files hb
    refine ⟨?_, Int.natCast_nonneg _⟩
    cases i with
    | evClosed =>
      by_cases hf : files = 0 <;> simp [drainerRun, hf, evCreates, evRemoves]
    | errItem er =>
      by_cases hf : files = 0
      · simp [drainerRun, hf, evCreates, evRemoves]
      · have hb2 : files + evCreates (scriptEvents rest) < u32 := by
          simpa [scriptEvents] using hb
        have hIH := (ih files hb2).1
        simpa [drainerRun, hf] using hIH
    | errClosed =>
      by_cases hf : files = 0
      · simp [drainerRun, hf, evCreates, evRemoves]
      · have hb2 : files + evCreates (scriptEvents rest) < u32 := by
          simpa [scriptEvents] using hb
        have hIH := (ih files hb2).1
        simpa [drainerRun, hf] using hIH
    | ev e =>
      by_cases hf : files = 0
      · simp [drainerRun, hf, evCreates, evRemoves]
      · have h1 : 1 ≤ files := Nat.one_le_iff_ne_zero.mpr hf
        have hfu : files < u32 := lt_of_le_of_lt (Nat.le_add_right _ _) hb
        have hbx : files + (evCreates (scriptEvents rest)
            + (if hasOp e.op createMask then 1 else 0)) < u32 := by
          simpa [scriptEvents, evCreates, List.countP_cons] using hb
        by_cases hR : hasOp e.op removeMask = true <;>
          by_cases hC : hasOp e.op createMask = true
        · -- Remove and Create bits both set
          rw [if_pos hC] at hbx
          have hp : (applyFsEvent opt files e).1 = files := by
            simp only [applyFsEvent, hR, hC, if_true]
            rw [dec32_eq files h1 hfu, inc32_eq (files - 1) (by omega)]
            omega
          have hb2 : files + evCreates (scriptEvents rest) < u32 := by omega
          have hIH := (ih files hb2).1
          simp only [drainerRun, if_neg hf, hp]
          simp only [evCreates, evRemoves, List.countP_cons, hR, hC]
          simp only [evCreates, evRemoves] at hIH
          push_cast
          linarith
        · -- Remove bit only
          rw [if_neg hC] at hbx
          have hp : (applyFsEvent opt files e).1 = files - 1 := by
            simp only [applyFsEvent, hR, hC]
            simp only [if_true, if_neg hC, Bool.not_eq_true] at *
            simp [hC]
            exact dec32_eq files h1 hfu
          have hb2 : files - 1 + evCreates (scriptEvents rest) < u32 := by omega
          have hIH := (ih (files - 1) hb2).1
          simp only [drainerRun, if_neg hf, hp]
          simp only [evCreates, evRemoves, List.countP_cons, hR, hC]
          simp only [evCreates, evRemoves] at hIH
          push_cast
          push_cast [Nat.cast_sub h1] at hIH
          linarith
        · -- Create bit only
          rw [if_pos hC] at hbx
          have hp : (applyFsEvent opt files e).1 = files + 1 := by
            simp only [applyFsEvent, hC]
            simp [hR]
            exact inc32_eq files (by omega)
          have hb2 : files + 1 + evCreates (scriptEvents rest) < u32 := by omega
          have hIH := (ih (files + 1) hb2).1
          simp only [drainerRun, if_neg hf, hp]
          simp only [evCreates, evRemoves, List.countP_cons, hR, hC]
          simp only [evCreates, evRemoves] at hIH
          push_cast
          push_cast at hIH
          linarith
        · -- neither bit
          rw [if_neg hC] at hbx
          have hp : (applyFsEvent opt files e).1 = files := by
            simp [applyFsEvent, hR, hC]
          have hb2 : files + evCreates (scriptEvents rest) < u32 := by omega
          have hIH := (ih files hb2).1
          simp only [drainerRun, if_neg hf, hp]
          simp only [evCreates, evRemoves, List.countP_cons, hR, hC]
          simp only [evCreates, evRemoves] at hIH
          push_cast
          linarith

theorem c9_files_accounting_witness :
    (1 : Nat) + evCreates (scriptEvents [Item.ev ⟨removeMask, "a.txt", false⟩]) < u32 ∧
    ((drainerRun optNone 1 [Item.ev ⟨removeMask, "a.txt", false⟩]).files : Int)
        = (1 : Int)
          + (evCreates (drainerRun optNone 1
              [Item.ev ⟨removeMask, "a.txt", false⟩]).consumed : Int)
          - (evRemoves (drainerRun optNone 1
              [Item.ev ⟨removeMask, "a.txt", false⟩]).consumed : Int) :=
  ⟨by decide,
   (c9_files_accounting optNone [Item.ev ⟨removeMask, "a.txt", false⟩] 1 (by decide)).1⟩
